import Mathlib
namespace WildlifeAnalytics
/-!
Verification of the analytics core of ESP32WildlifeCAM
(`src/backend/v3.1/services/enhanced_analytics_engine.py`).

The Python functions are embedded shallowly:
* a `Dict[str, int]` of species counts enters the index computations only
  through `.values()`, so it is modelled as a `List ℕ` of counts;
* Python float arithmetic is idealised as exact arithmetic (`ℚ`, and `ℝ`
  where `np.log` is involved);
* detections are records carrying the fields the engine reads.
-/
/-- One summand of the Simpson numerator: the loop body adds `c·(c-1)`
only when `count > 0`. -/
def simpsonTerm (c : ℕ) : ℚ :=
  if 0 < c then (c : ℚ) * ((c : ℚ) - 1) else 0
/-- `BiodiversityAnalyzer.calculate_simpson_index`:
returns 0 for an empty mapping or `total <= 1`; otherwise
`1 - (Σ c·(c-1)) / (total·(total-1))`, summing only over positive counts. -/
def calculate_simpson_index (counts : List ℕ) : ℚ :=
  if counts = [] then 0
  else
    let total : ℕ := counts.sum
    if total ≤ 1 then 0
    else
      let simpson : ℚ := (counts.map simpsonTerm).sum
      1 - simpson / ((total : ℚ) * ((total : ℚ) - 1))
/-- One summand of the Shannon accumulation: the loop subtracts
`proportion * log proportion` only when `count > 0`. -/
noncomputable def shannonTerm (total c : ℕ) : ℝ :=
  if 0 < c then -(((c : ℝ) / (total : ℝ)) * Real.log ((c : ℝ) / (total : ℝ))) else 0
/-- `BiodiversityAnalyzer.calculate_shannon_index`:
returns 0 for an empty mapping or `total = 0`; otherwise
`-Σ p_i · ln p_i` over positive counts, with `p_i = count_i / total`. -/
noncomputable def calculate_shannon_index (counts : List ℕ) : ℝ :=
  if counts = [] then 0
  else
    let total : ℕ := counts.sum
    if total = 0 then 0
    else (counts.map (shannonTerm total)).sum
/-! ### Activity pattern classification -/
/-- The dawn period of `_classify_activity_type` (5-7 AM). -/
def dawn_hours : List (Fin 24) := [5, 6, 7]
/-- The daytime period (8 AM - 5 PM). -/
def day_hours : List (Fin 24) := [8, 9, 10, 11, 12, 13, 14, 15, 16, 17]
/-- The dusk period (6-8 PM). -/
def dusk_hours : List (Fin 24) := [18, 19, 20]
/-- The night period (9 PM - 4 AM). -/
def night_hours : List (Fin 24) := [21, 22, 23, 0, 1, 2, 3, 4]
/-- Share of total activity falling in the hours `hs`:
`sum(hourly_activity.get(h, 0) for h in hs) / total_activity`. -/
def hourShare (hist : Fin 24 → ℕ) (hs : List (Fin 24)) : ℚ :=
  ((hs.map fun h => (hist h : ℚ)).sum) / ((List.ofFn hist).sum : ℚ)
/-- `ActivityPatternAnalyzer._classify_activity_type`, over a full 24-bucket
histogram. The source receives a dict of hour → count where an absent hour
reads as 0 via `.get(h, 0)`; the leading `if not hourly_activity` guard
coincides with the `total_activity == 0` guard on a histogram, since the
dict built by `groupby('hour').size()` holds only positive counts. -/
def classify_activity_type (hist : Fin 24 → ℕ) : String :=
  if (List.ofFn hist).sum = 0 then "unknown"
  else
    if hourShare hist day_hours > 0.6 then "diurnal"
    else if hourShare hist night_hours > 0.6 then "nocturnal"
    else if hourShare hist dawn_hours + hourShare hist dusk_hours > 0.5 then "crepuscular"
    else "cathemeral"
/-! ### Detections and anomaly detection -/
/-- The fields of a `WildlifeDetection` row that the analytics engine reads:
the optional species relation (its name when present), the optional foreign
key `species_id`, the calendar day ordinal and hour of `created_at`, and the
detection confidence. -/
structure WildlifeDetection where
  species_id : Option ℕ
  species_name : Option String
  day : ℕ
  hour : Fin 24
  confidence : ℚ
deriving DecidableEq, Repr
/-- `detection.species.name if detection.species else 'Unknown'`. -/
def speciesName (d : WildlifeDetection) : String :=
  d.species_name.getD "Unknown"
/-- Keys of the `species_stats` dict in first-appearance order (Python dict
insertion order). -/
def speciesKeys (dets : List WildlifeDetection) : List String :=
  dets.foldl (fun ks d => if speciesName d ∈ ks then ks else ks ++ [speciesName d]) []
/-- The confidence list accumulated for species `s`, in detection order. -/
def speciesConfidences (dets : List WildlifeDetection) (s : String) : List ℚ :=
  (dets.filter (fun d => speciesName d = s)).map (·.confidence)
/-- Payload of a species-confidence anomaly as built at lines 266-279 of the
source. Under the fault described at `detect_species_anomalies` no such
record is ever produced. -/
structure SpeciesAnomaly where
  severity : String
  description : String
  species_id : Option ℕ
  detection_confidence : ℚ
  species_name : String
deriving DecidableEq, Repr
/-- `AnomalyDetector.detect_species_anomalies`. The source groups detections
by species name and, for each species with at least 5 confidence values,
evaluates `stats.zscore(confidences)`. At that point the name `stats` is the
per-species dict bound by the loop `for species_name, stats in
species_stats.items():`, which shadows the `scipy.stats` module imported at
the top of the file; a dict has no attribute `zscore`, so the call raises
`AttributeError` and the whole function aborts. `.error` models the raised
exception; species with fewer than 5 confidences are skipped by `continue`
before the faulty call. -/
def detect_species_anomalies (dets : List WildlifeDetection) :
    Except String (List SpeciesAnomaly) :=
  if dets.length < 20 then .ok []
  else if (speciesKeys dets).any (fun s => 5 ≤ (speciesConfidences dets s).length) then
    .error "AttributeError"
  else .ok []
/-- The distinct calendar days of the detections, in ascending order — the
index of the `groupby(df['datetime'].dt.date)` aggregation. -/
def sortedDays (dets : List WildlifeDetection) : List ℕ :=
  List.insertionSort (· ≤ ·) (dets.map (·.day)).dedup
/-- pandas `x.mode().iloc[0]` over the hour series: `mode()` lists the most
frequent values in ascending order, so `.iloc[0]` is the smallest hour of
maximal multiplicity; the source falls back to 12 for an empty series. -/
def modeHour (hs : List (Fin 24)) : Fin 24 :=
  if hs.isEmpty then 12
  else
    match (List.finRange 24).filter
        (fun h => hs.count h = ((List.finRange 24).map (fun g => hs.count g)).foldr max 0) with
    | [] => 12
    | h :: _ => h
/-- One row of `daily_stats`: day, detection count (`species_id: 'count'`),
mean confidence and modal hour of that day's detections. -/
def dailyStat (dets : List WildlifeDetection) (day : ℕ) : ℕ × ℕ × ℚ × Fin 24 :=
  (day,
   (dets.filter (fun d => d.day = day)).length,
   ((dets.filter (fun d => d.day = day)).map (·.confidence)).sum
     / ((dets.filter (fun d => d.day = day)).length : ℚ),
   modeHour ((dets.filter (fun d => d.day = day)).map (·.hour)))
/-- The per-day aggregation of `detect_temporal_anomalies`. -/
def daily_stats (dets : List WildlifeDetection) : List (ℕ × ℕ × ℚ × Fin 24) :=
  (sortedDays dets).map (dailyStat dets)
/-- Payload of a temporal anomaly (lines 215-226 of the source). -/
structure TemporalAnomaly where
  date : ℕ
  severity : String
  detection_count : ℕ
  avg_confidence : ℚ
  peak_hour : Fin 24
deriving DecidableEq, Repr
/-- `AnomalyDetector.detect_temporal_anomalies`. The guards are taken from
the source: fewer than 10 detections, or fewer than 5 aggregated days,
return `[]`. The fitted `StandardScaler` + `IsolationForest` pipeline is an
opaque ML library call; it is abstracted as the parameter `forest`, mapping
the daily feature rows `(count, mean confidence, modal hour)` to per-row
anomaly flags (`true` models `fit_predict` returning `-1`). -/
def detect_temporal_anomalies
    (forest : List (ℕ × ℚ × Fin 24) → List Bool)
    (dets : List WildlifeDetection) : List TemporalAnomaly :=
  if dets.length < 10 then []
  else if (daily_stats dets).length < 5 then []
  else
    (((daily_stats dets).zip
        (forest ((daily_stats dets).map (fun r => r.2)))).filter (fun p => p.2)).map
      (fun p => ⟨p.1.1, "medium", p.1.2.1, p.1.2.2.1, p.1.2.2.2⟩)
/-! ### Peak activity hours -/
/-- Number of detections at hour `h`: one bucket of
`df.groupby('hour').size()`. -/
def hourCount (dets : List WildlifeDetection) (h : ℕ) : ℕ :=
  (dets.filter (fun d => (d.hour : ℕ) = h)).length
/-- `df.groupby('hour').size().to_dict()` as an association list: the
distinct hour values in ascending order with their (positive) counts. -/
def hourly_activity (dets : List WildlifeDetection) : List (ℕ × ℕ) :=
  ((List.range 24).map (fun h => (h, hourCount dets h))).filter (fun p => 0 < p.2)
/-- The order `sorted(hourly_activity.items(), key=lambda x: x[1],
reverse=True)` realises: count descending, and — because Python's sort is
stable and the items start in ascending hour order — ties by ascending
hour. -/
def PeakOrder (a b : ℕ × ℕ) : Prop :=
  b.2 < a.2 ∨ (a.2 = b.2 ∧ a.1 ≤ b.1)
instance : DecidableRel PeakOrder := fun a b => by
  unfold PeakOrder; exact inferInstance
instance : IsTotal (ℕ × ℕ) PeakOrder :=
  ⟨fun a b => by unfold PeakOrder; omega⟩
instance : IsTrans (ℕ × ℕ) PeakOrder :=
  ⟨fun a b c hab hbc => by unfold PeakOrder at *; omega⟩
/-- `peak_hours = [hour for hour, count in top_hours]` with
`top_hours = sorted(items, key=lambda x: x[1], reverse=True)[:3]`. -/
def peak_activity_hours (dets : List WildlifeDetection) : List ℕ :=
  ((List.insertionSort PeakOrder (hourly_activity dets)).take 3).map Prod.fst
/-- A concrete detection list: two detections at hour 3, one at hour 5. -/
def peakExampleDets : List WildlifeDetection :=
  [⟨some 1, some "deer", 0, 3, 1⟩, ⟨some 1, some "deer", 0, 3, 1⟩,
   ⟨some 1, some "deer", 0, 5, 1⟩]
/-! ### Population trends

`scipy.stats.linregress` returns `(slope, intercept, r_value, p_value,
std_err)`. Slope, intercept and `r²` are rational functions of the data and
are embedded exactly; the p-value (a t-distribution tail probability) and
the standard error (a square root) are transcendental in the data and are
abstracted as the parameters `pOf` and `seOf`, functions of the count
series. Every claim below quantifies over them. -/
/-- The x-axis of the regression: `np.arange(len(dates))` as rationals. -/
def regX (n : ℕ) : List ℚ :=
  (List.range n).map (fun i => (i : ℚ))
/-- Least-squares slope `ssxym / ssxm` of counts against the 0-based day
index (division by zero yields 0 in `ℚ`, a case never reached for the
`≥ 10` day series the analyzer keeps). -/
def linSlope (ys : List ℚ) : ℚ :=
  let n : ℚ := ys.length
  let xm := (regX ys.length).sum / n
  let ym := ys.sum / n
  (((regX ys.length).zip ys).map (fun p => (p.1 - xm) * (p.2 - ym))).sum
    / (((regX ys.length).map (fun x => (x - xm) ^ 2)).sum)
/-- Least-squares intercept `ym - slope * xm`. -/
def linIntercept (ys : List ℚ) : ℚ :=
  let n : ℚ := ys.length
  let xm := (regX ys.length).sum / n
  let ym := ys.sum / n
  ym - linSlope ys * xm
/-- `r_value ** 2`: zero when either variance vanishes (scipy sets
`r = 0.0` in that degenerate case), otherwise `ssxym² / (ssxm·ssym)`. -/
def linRSquared (ys : List ℚ) : ℚ :=
  let n : ℚ := ys.length
  let xm := (regX ys.length).sum / n
  let ym := ys.sum / n
  let sxx := ((regX ys.length).map (fun x => (x - xm) ^ 2)).sum
  let syy := (ys.map (fun y => (y - ym) ^ 2)).sum
  let sxy := (((regX ys.length).zip ys).map (fun p => (p.1 - xm) * (p.2 - ym))).sum
  if sxx = 0 ∨ syy = 0 then 0 else sxy ^ 2 / (sxx * syy)
/-- Detections of species `s` on calendar day `day`. -/
def speciesDayCount (dets : List WildlifeDetection) (s : String) (day : ℕ) : ℕ :=
  (dets.filter (fun d => speciesName d = s ∧ d.day = day)).length
/-- The distinct days on which species `s` was seen, ascending
(`dates = sorted(date_counts.keys())`). -/
def speciesDays (dets : List WildlifeDetection) (s : String) : List ℕ :=
  List.insertionSort (· ≤ ·) ((dets.filter (fun d => speciesName d = s)).map (·.day)).dedup
/-- `counts = [date_counts[date] for date in dates]`. -/
def speciesCounts (dets : List WildlifeDetection) (s : String) : List ℚ :=
  (speciesDays dets s).map (fun day => (speciesDayCount dets s day : ℚ))
/-- One forecast point (source lines 340-352): `future_x = len(dates) + i`,
`predicted = max(0, slope*future_x + intercept)`, a `±1.96·std_err`
interval clamped at 0 below, dated `dates[-1] + timedelta(days=i+1)`. -/
structure ForecastPoint where
  date : ℕ
  predicted_count : ℚ
  lower : ℚ
  upper : ℚ
deriving DecidableEq, Repr
/-- Builds the forecast point for offset `i`. -/
def forecastPoint (slope intercept se : ℚ) (n lastDay i : ℕ) : ForecastPoint :=
  ⟨lastDay + (i + 1),
   max 0 (slope * ((n : ℚ) + (i : ℚ)) + intercept),
   max 0 (max 0 (slope * ((n : ℚ) + (i : ℚ)) + intercept) - 1.96 * se),
   max 0 (slope * ((n : ℚ) + (i : ℚ)) + intercept) + 1.96 * se⟩
/-- The 30-day linear projection. -/
def forecast_data (slope intercept se : ℚ) (n lastDay : ℕ) : List ForecastPoint :=
  (List.range 30).map (forecastPoint slope intercept se n lastDay)
/-- One entry of the trend list (source lines 354-373). `np.std` (a square
root) is omitted from the embedded record; no claim concerns it. The
2-decimal display rounding of `trend_percentage` and `confidence_level` is
omitted: the claims and spec speak of the exact quantities. -/
structure TrendResult where
  species_id : Option ℕ
  species_name : String
  trend_direction : String
  trend_percentage : ℚ
  confidence_level : ℚ
  forecast_data : List ForecastPoint
  slope : ℚ
  r_squared : ℚ
  p_value : ℚ
  mean_detections : ℚ
deriving DecidableEq, Repr
/-- The trend entry built for one qualifying species `s`. -/
def mkTrend (pOf seOf : List ℚ → ℚ) (dets : List WildlifeDetection) (s : String) :
    TrendResult :=
  let counts := speciesCounts dets s
  let slope := linSlope counts
  let p := pOf counts
  let mean := counts.sum / (counts.length : ℚ)
  ⟨(dets.find? (fun d => d.species_name = some s)).bind (·.species_id),
   s,
   if |slope| < 0.01 then "stable"
   else if slope > 0 then "increasing" else "decreasing",
   if |slope| < 0.01 then 0
   else if slope > 0 then slope * ((speciesDays dets s).length : ℚ) / mean * 100
   else |slope * ((speciesDays dets s).length : ℚ) / mean * 100|,
   if p > 0.05 then min (linRSquared counts * 100) 90 * 0.5
   else min (linRSquared counts * 100) 90,
   forecast_data slope (linIntercept counts) (seOf counts)
     (speciesDays dets s).length ((speciesDays dets s).getLast?.getD 0),
   slope, linRSquared counts, p, mean⟩
/-- `PopulationTrendAnalyzer.analyze_population_trends`: species keys in
first-appearance order, skipping those with fewer than 10 distinct days. -/
def analyze_population_trends (pOf seOf : List ℚ → ℚ)
    (dets : List WildlifeDetection) : List TrendResult :=
  (speciesKeys dets).filterMap (fun s =>
    if (speciesDays dets s).length < 10 then none
    else some (mkTrend pOf seOf dets s))
/-- A concrete series: one species seen once a day on 10 distinct days. -/
def trendExampleDets : List WildlifeDetection :=
  (List.range 10).map (fun i => ⟨some 2, some "lynx", i, 0, 1⟩)
/-! ### Conservation alerts -/
/-- The fields of `EnhancedSpecies` the alert system reads. -/
structure EnhancedSpecies where
  id : ℕ
  name : String
  is_endangered : Bool
  is_protected : Bool
deriving DecidableEq, Repr
/-- `species_lookup = {s.id: s for s in species_data}`: a dict comprehension,
so a later entry with the same id overwrites an earlier one. -/
def species_lookup (l : List EnhancedSpecies) (i : ℕ) : Option EnhancedSpecies :=
  (l.filter (fun sp => sp.id = i)).getLast?
/-- An emitted alert (the wall-clock `created_at` field is omitted). -/
structure ConservationAlert where
  id : ℕ
  species_id : ℕ
  species_name : String
  alert_type : String
  severity : String
  description : String
  recommended_actions : List String
  trend_data : TrendResult
deriving DecidableEq
/-- Rule A guard: endangered, decreasing, confidence above 60. -/
def ruleA (sp : EnhancedSpecies) (t : TrendResult) : Bool :=
  sp.is_endangered && decide (t.trend_direction = "decreasing")
    && decide (t.confidence_level > 60)
/-- Rule B guard: protected, decreasing, magnitude above 30. -/
def ruleB (sp : EnhancedSpecies) (t : TrendResult) : Bool :=
  sp.is_protected && decide (t.trend_direction = "decreasing")
    && decide (t.trend_percentage > 30)
/-- The fixed recommended actions of a Rule A (critical) alert. -/
def criticalActions : List String :=
  ["Increase monitoring frequency", "Review habitat conditions",
   "Consider intervention measures", "Notify conservation authorities"]
/-- The fixed recommended actions of a Rule B (high) alert. -/
def warningActions : List String :=
  ["Investigate environmental changes", "Check camera functionality",
   "Review seasonal patterns", "Consult with wildlife experts"]
/-- The (at most one) alert contributed by a single species/trend pair:
the source tests Rule A with `if` and Rule B with `elif`. -/
def alertsFor (sp : EnhancedSpecies) (t : TrendResult) (sid nextId : ℕ) :
    List ConservationAlert :=
  if ruleA sp t then
    [⟨nextId, sid, sp.name, "population_decline", "critical",
      "Declining population trend detected for endangered species " ++ sp.name,
      criticalActions, t⟩]
  else if ruleB sp t then
    [⟨nextId, sid, sp.name, "behavioral_anomaly", "high",
      "Significant decline in " ++ sp.name ++ " detections",
      warningActions, t⟩]
  else []
/-- `ConservationAlertSystem.generate_conservation_alerts`. A trend is
skipped when its `species_id` is falsy (`None` or 0) or absent from the
lookup; otherwise the pair contributes `alertsFor`, with `id` assigned as
`len(alerts) + 1`. -/
def generate_conservation_alerts (trends : List TrendResult)
    (species_data : List EnhancedSpecies) : List ConservationAlert :=
  trends.foldl (fun alerts t =>
    match t.species_id with
    | none => alerts
    | some sid =>
      if sid = 0 then alerts
      else
        match species_lookup species_data sid with
        | none => alerts
        | some sp => alerts ++ alertsFor sp t sid (alerts.length + 1)) []
/-- An endangered, protected species used by the alert witnesses. -/
def exampleSpecies : EnhancedSpecies := ⟨7, "Iberian lynx", true, true⟩
/-- A decreasing trend at confidence 75 (the spec's example scenario). -/
def exampleTrend : TrendResult :=
  ⟨some 7, "Iberian lynx", "decreasing", 35, 75, [], -1, 1, 1, 2⟩
/-- The alert the example scenario produces. -/
def exampleAlert : ConservationAlert :=
  ⟨1, 7, "Iberian lynx", "population_decline", "critical",
   "Declining population trend detected for endangered species Iberian lynx",
   criticalActions, exampleTrend⟩
/-! ### Theorems -/
/-- Each summand `c·(c-1)` of the Simpson numerator is nonnegative. -/
lemma simpson_term_nonneg (c : ℕ) : 0 ≤ simpsonTerm c := by
  unfold simpsonTerm
  rcases Nat.eq_zero_or_pos c with h | h
  · simp [h]
  · have h1 : (1 : ℚ) ≤ (c : ℚ) := by exact_mod_cast h
    have : (0 : ℚ) ≤ (c : ℚ) * ((c : ℚ) - 1) := by nlinarith
    simp [h, this]
/-- The guard `0 < c` in the Simpson numerator is redundant over exact
arithmetic: `0·(0-1) = 0`. -/
lemma simpson_term_eq (c : ℕ) : simpsonTerm c = (c : ℚ) * ((c : ℚ) - 1) := by
  unfold simpsonTerm
  rcases Nat.eq_zero_or_pos c with h | h
  · simp [h]
  · simp [h]
/-- Simpson numerator bound: `Σ c·(c-1) ≤ total·(total-1)`. -/
lemma simpson_sum_le (counts : List ℕ) :
    ((counts.map simpsonTerm).sum)
      ≤ (counts.sum : ℚ) * ((counts.sum : ℚ) - 1) := by
  induction counts with
  | nil => simp
  | cons a t ih =>
    have ha : (0 : ℚ) ≤ (a : ℚ) := by positivity
    have hs : (0 : ℚ) ≤ (t.sum : ℚ) := by positivity
    simp only [List.map_cons, List.sum_cons, Nat.cast_add]
    rw [simpson_term_eq a]
    nlinarith [ih]
/-- C2 amended: for `total > 1` the Simpson index equals the stated formula
and lies in the closed interval `[0, 1]`; for `total ≤ 1` it is `0`. -/
theorem simpson_index_range (counts : List ℕ) :
    (1 < counts.sum →
      calculate_simpson_index counts =
        1 - (counts.map (fun (c : ℕ) => (c : ℚ) * ((c : ℚ) - 1))).sum
              / ((counts.sum : ℚ) * ((counts.sum : ℚ) - 1)) ∧
      0 ≤ calculate_simpson_index counts ∧
      calculate_simpson_index counts ≤ 1) ∧
    (counts.sum ≤ 1 → calculate_simpson_index counts = 0) := by
  constructor
  · intro htot
    have hne : counts ≠ [] := by
      intro h; subst h; simp at htot
    have hnotle : ¬ counts.sum ≤ 1 := by omega
    have hval : calculate_simpson_index counts =
        1 - (counts.map simpsonTerm).sum
              / ((counts.sum : ℚ) * ((counts.sum : ℚ) - 1)) := by
      unfold calculate_simpson_index
      simp only [hne, if_false, hnotle]
    have hmap : (counts.map simpsonTerm).sum
        = (counts.map (fun (c : ℕ) => (c : ℚ) * ((c : ℚ) - 1))).sum := by
      congr 1
      exact List.map_congr_left (fun c _ => simpson_term_eq c)
    have htotq : (2 : ℚ) ≤ (counts.sum : ℚ) := by exact_mod_cast htot
    have hden : (0 : ℚ) < (counts.sum : ℚ) * ((counts.sum : ℚ) - 1) := by nlinarith
    have hnum_nonneg :
        0 ≤ (counts.map simpsonTerm).sum := by
      apply List.sum_nonneg
      intro x hx
      rcases List.mem_map.mp hx with ⟨c, _, rfl⟩
      exact simpson_term_nonneg c
    have hnum_le := simpson_sum_le counts
    refine ⟨by rw [hval, hmap], ?_, ?_⟩
    · rw [hval]
      have hdiv : (counts.map simpsonTerm).sum
            / ((counts.sum : ℚ) * ((counts.sum : ℚ) - 1)) ≤ 1 :=
        (div_le_one hden).mpr hnum_le
      linarith
    · rw [hval]
      have hdiv : 0 ≤ (counts.map simpsonTerm).sum
            / ((counts.sum : ℚ) * ((counts.sum : ℚ) - 1)) :=
        div_nonneg hnum_nonneg (le_of_lt hden)
      linarith
  · intro htot
    unfold calculate_simpson_index
    rcases eq_or_ne counts [] with h | h
    · simp [h]
    · simp [h, htot]
/-- Every element of a `ℕ` list is at most its sum. -/
lemma mem_le_sum {c : ℕ} {counts : List ℕ} (hc : c ∈ counts) : c ≤ counts.sum :=
  List.le_sum_of_mem hc
/-- Each Shannon summand is nonnegative when `c ≤ total`. -/
lemma shannon_term_nonneg {total c : ℕ} (hct : c ≤ total) : 0 ≤ shannonTerm total c := by
  unfold shannonTerm
  rcases Nat.eq_zero_or_pos c with h | h
  · simp [h]
  · have htot : 0 < total := lt_of_lt_of_le h hct
    have hp0 : (0 : ℝ) < (c : ℝ) / (total : ℝ) := by
      apply div_pos <;> exact_mod_cast (by omega)
    have hp1 : (c : ℝ) / (total : ℝ) ≤ 1 := by
      rw [div_le_one (by exact_mod_cast htot)]
      exact_mod_cast hct
    have hlog : Real.log ((c : ℝ) / (total : ℝ)) ≤ 0 :=
      Real.log_nonpos (le_of_lt hp0) hp1
    have : ((c : ℝ) / (total : ℝ)) * Real.log ((c : ℝ) / (total : ℝ)) ≤ 0 :=
      mul_nonpos_of_nonneg_of_nonpos (le_of_lt hp0) hlog
    simp only [h, if_pos]
    linarith
/-- Each Shannon summand is strictly positive when `0 < c < total`. -/
lemma shannon_term_pos {total c : ℕ} (hc : 0 < c) (hct : c < total) :
    0 < shannonTerm total c := by
  unfold shannonTerm
  have hp0 : (0 : ℝ) < (c : ℝ) / (total : ℝ) := by
    apply div_pos <;> exact_mod_cast (by omega)
  have hp1 : (c : ℝ) / (total : ℝ) < 1 := by
    rw [div_lt_one (by exact_mod_cast (by omega : 0 < total))]
    exact_mod_cast hct
  have hlog : Real.log ((c : ℝ) / (total : ℝ)) < 0 := Real.log_neg hp0 hp1
  have : ((c : ℝ) / (total : ℝ)) * Real.log ((c : ℝ) / (total : ℝ)) < 0 :=
    mul_neg_of_pos_of_neg hp0 hlog
  simp only [hc, if_pos]
  linarith
/-- A Shannon summand vanishes when `c = 0` or `c = total`. -/
lemma shannon_term_eq_zero {total c : ℕ} (h : c = 0 ∨ c = total) :
    shannonTerm total c = 0 := by
  unfold shannonTerm
  rcases h with h | h
  · simp [h]
  · subst h
    rcases Nat.eq_zero_or_pos c with h0 | h0
    · simp [h0]
    · have hcne : (c : ℝ) ≠ 0 := by
        exact_mod_cast Nat.pos_iff_ne_zero.mp h0
      have hdiv : (c : ℝ) / (c : ℝ) = 1 := div_self hcne
      simp [h0, hdiv]
/-- If at most one count is positive, every count is `0` or the whole total. -/
lemma countP_le_one_mem (counts : List ℕ)
    (h : counts.countP (fun c => 0 < c) ≤ 1) :
    ∀ c ∈ counts, c = 0 ∨ c = counts.sum := by
  induction counts with
  | nil => intro c hc; simp at hc
  | cons a t ih =>
    intro c hc
    rcases List.mem_cons.mp hc with rfl | hct
    · rcases Nat.eq_zero_or_pos c with h0 | h0
      · exact Or.inl h0
      · rw [List.countP_cons_of_pos _ _ (by simpa using h0)] at h
        have htcount : t.countP (fun c => 0 < c) = 0 := by omega
        have ht0 : ∀ x ∈ t, x = 0 := by
          intro x hx
          have := List.countP_eq_zero.mp htcount x hx
          simpa using this
        have hts : t.sum = 0 := List.sum_eq_zero ht0
        right
        simp [List.sum_cons, hts]
    · rcases Nat.eq_zero_or_pos a with ha0 | ha0
      · rw [List.countP_cons_of_neg _ _ (by simp [ha0])] at h
        rcases ih h c hct with h0 | hsum
        · exact Or.inl h0
        · right; simp [List.sum_cons, ha0, hsum]
      · rw [List.countP_cons_of_pos _ _ (by simpa using ha0)] at h
        have htcount : t.countP (fun c => 0 < c) = 0 := by omega
        have hmem := List.countP_eq_zero.mp htcount
        rcases Nat.eq_zero_or_pos c with h0 | h0
        · exact Or.inl h0
        · exfalso
          have := hmem c hct
          simp [h0] at this
/-- If at least two counts are positive, some positive count is below the total. -/
lemma two_pos_exists (counts : List ℕ)
    (h : 2 ≤ counts.countP (fun c => 0 < c)) :
    ∃ c ∈ counts, 0 < c ∧ c < counts.sum := by
  induction counts with
  | nil => simp at h
  | cons a t ih =>
    rcases Nat.eq_zero_or_pos a with ha0 | ha0
    · rw [List.countP_cons_of_neg _ _ (by simp [ha0])] at h
      rcases ih h with ⟨c, hct, hc0, hcs⟩
      refine ⟨c, List.mem_cons_of_mem a hct, hc0, ?_⟩
      simp only [List.sum_cons]
      omega
    · rw [List.countP_cons_of_pos _ _ (by simpa using ha0)] at h
      have htcount : 0 < t.countP (fun c => 0 < c) := by omega
      rcases List.countP_pos_iff.mp htcount with ⟨b, hbt, hb⟩
      have hb0 : 0 < b := by simpa using hb
      have hbs : b ≤ t.sum := mem_le_sum hbt
      refine ⟨a, List.mem_cons_self a t, ha0, ?_⟩
      simp only [List.sum_cons]
      omega
/-- Summing the negated terms equals negating the sum. -/
lemma sum_map_neg (l : List ℕ) (f : ℕ → ℝ) :
    (l.map (fun c => -(f c))).sum = -((l.map f).sum) := by
  induction l with
  | nil => simp
  | cons a t ih => simp [List.map_cons, List.sum_cons, ih]; ring
/-- C7: the Shannon index equals `-Σ p·ln p` over positive counts whenever
the total is positive, is always nonnegative, and vanishes exactly when at
most one count is positive. -/
theorem shannon_index_spec (counts : List ℕ) :
    (0 < counts.sum →
      calculate_shannon_index counts =
        -((counts.map (fun (c : ℕ) =>
            if 0 < c then ((c : ℝ) / (counts.sum : ℝ)) * Real.log ((c : ℝ) / (counts.sum : ℝ))
            else 0)).sum)) ∧
    0 ≤ calculate_shannon_index counts ∧
    (calculate_shannon_index counts = 0 ↔ counts.countP (fun c => 0 < c) ≤ 1) := by
  rcases eq_or_ne counts [] with hnil | hne
  · subst hnil
    refine ⟨by intro h; simp at h, by simp [calculate_shannon_index], ?_⟩
    simp [calculate_shannon_index]
  rcases Nat.eq_zero_or_pos counts.sum with htot0 | htot
  · have hall0 : ∀ c ∈ counts, c = 0 := by
      intro c hc
      have := mem_le_sum hc
      omega
    have hval : calculate_shannon_index counts = 0 := by
      unfold calculate_shannon_index
      simp [hne, htot0]
    refine ⟨by intro h; omega, by rw [hval], ?_⟩
    rw [hval]
    constructor
    · intro _
      have hcount0 : counts.countP (fun c => 0 < c) = 0 := by
        apply List.countP_eq_zero.mpr
        intro x hx
        simp [hall0 x hx]
      omega
    · intro _; rfl
  · have hval : calculate_shannon_index counts = (counts.map (shannonTerm counts.sum)).sum := by
      unfold calculate_shannon_index
      simp [hne, Nat.pos_iff_ne_zero.mp htot]
    have hterm_nonneg : ∀ x ∈ counts.map (shannonTerm counts.sum), 0 ≤ x := by
      intro x hx
      rcases List.mem_map.mp hx with ⟨c, hc, rfl⟩
      exact shannon_term_nonneg (mem_le_sum hc)
    have hnonneg : 0 ≤ calculate_shannon_index counts := by
      rw [hval]
      exact List.sum_nonneg hterm_nonneg
    refine ⟨?_, hnonneg, ?_⟩
    · intro _
      rw [hval]
      rw [← sum_map_neg counts
            (fun (c : ℕ) => if 0 < c then ((c : ℝ) / (counts.sum : ℝ)) * Real.log ((c : ℝ) / (counts.sum : ℝ)) else 0)]
      congr 1
      apply List.map_congr_left
      intro c _
      unfold shannonTerm
      rcases Nat.eq_zero_or_pos c with h0 | h0 <;> simp [h0]
    · constructor
      · intro hzero
        by_contra hcount
        push_neg at hcount
        rcases two_pos_exists counts (by omega) with ⟨c, hc, hc0, hcs⟩
        have hpos : 0 < shannonTerm counts.sum c := shannon_term_pos hc0 hcs
        have hle : shannonTerm counts.sum c ≤ (counts.map (shannonTerm counts.sum)).sum :=
          List.single_le_sum hterm_nonneg _ (List.mem_map_of_mem _ hc)
        rw [hval] at hzero
        linarith
      · intro hcount
        rw [hval]
        apply List.sum_eq_zero
        intro x hx
        rcases List.mem_map.mp hx with ⟨c, hc, rfl⟩
        exact shannon_term_eq_zero (countP_le_one_mem counts hcount c hc)
/-- C7 witness: the theorem applied at a concrete two-species input. -/
theorem shannon_index_spec_witness :
    calculate_shannon_index [3, 2] =
      -((([3, 2] : List ℕ).map (fun (c : ℕ) =>
          if 0 < c then ((c : ℝ) / (([3, 2] : List ℕ).sum : ℝ))
              * Real.log ((c : ℝ) / (([3, 2] : List ℕ).sum : ℝ))
          else 0)).sum) ∧
    0 ≤ calculate_shannon_index [3, 2] :=
  ⟨(shannon_index_spec [3, 2]).1 (by decide), (shannon_index_spec [3, 2]).2.1⟩
/-- C3: classification is total over the five labels, returns `"unknown"`
iff the histogram is empty, and otherwise follows the ordered
day/night/crepuscular rule with thresholds 0.6, 0.6 and 0.5. -/
theorem classify_activity_type_spec (hist : Fin 24 → ℕ) :
    classify_activity_type hist ∈
      ["diurnal", "nocturnal", "crepuscular", "cathemeral", "unknown"] ∧
    (classify_activity_type hist = "unknown" ↔ (List.ofFn hist).sum = 0) ∧
    ((List.ofFn hist).sum ≠ 0 →
      (0.6 < hourShare hist day_hours → classify_activity_type hist = "diurnal") ∧
      (hourShare hist day_hours ≤ 0.6 → 0.6 < hourShare hist night_hours →
        classify_activity_type hist = "nocturnal") ∧
      (hourShare hist day_hours ≤ 0.6 → hourShare hist night_hours ≤ 0.6 →
        0.5 < hourShare hist dawn_hours + hourShare hist dusk_hours →
        classify_activity_type hist = "crepuscular") ∧
      (hourShare hist day_hours ≤ 0.6 → hourShare hist night_hours ≤ 0.6 →
        hourShare hist dawn_hours + hourShare hist dusk_hours ≤ 0.5 →
        classify_activity_type hist = "cathemeral")) := by
  refine ⟨?_, ?_, ?_⟩
  · unfold classify_activity_type
    split_ifs <;> simp
  · constructor
    · intro h
      by_contra htot
      unfold classify_activity_type at h
      rw [if_neg htot] at h
      split_ifs at h <;> exact absurd h (by decide)
    · intro h
      unfold classify_activity_type
      rw [if_pos h]
  · intro htot
    refine ⟨?_, ?_, ?_, ?_⟩
    · intro hday
      unfold classify_activity_type
      simp only [htot, if_false]
      rw [if_pos (by exact hday)]
    · intro hday hnight
      unfold classify_activity_type
      simp only [htot, if_false]
      rw [if_neg (by exact not_lt.mpr hday), if_pos (by exact hnight)]
    · intro hday hnight hcrep
      unfold classify_activity_type
      simp only [htot, if_false]
      rw [if_neg (by exact not_lt.mpr hday), if_neg (by exact not_lt.mpr hnight),
        if_pos (by exact hcrep)]
    · intro hday hnight hcrep
      unfold classify_activity_type
      simp only [htot, if_false]
      rw [if_neg (by exact not_lt.mpr hday), if_neg (by exact not_lt.mpr hnight),
        if_neg (by exact not_lt.mpr hcrep)]
/-- C3 witness: the uniform histogram (one detection every hour) is
classified `"cathemeral"`. -/
theorem classify_activity_type_spec_witness :
    classify_activity_type (fun _ => 1) = "cathemeral" :=
  ((classify_activity_type_spec (fun _ => 1)).2.2 (by decide)).2.2.2
    (by
      have h1 : (List.ofFn (fun (_ : Fin 24) => 1)).sum = 24 := by decide
      rw [hourShare, h1]; norm_num [day_hours])
    (by
      have h1 : (List.ofFn (fun (_ : Fin 24) => 1)).sum = 24 := by decide
      rw [hourShare, h1]; norm_num [night_hours])
    (by
      have h1 : (List.ofFn (fun (_ : Fin 24) => 1)).sum = 24 := by decide
      rw [hourShare, hourShare, h1]; norm_num [dawn_hours, dusk_hours])
/-- Membership in the accumulator-passing species-key fold. -/
lemma mem_speciesKeys_foldl (dets : List WildlifeDetection) :
    ∀ (acc : List String) (s : String),
      s ∈ dets.foldl
          (fun ks d => if speciesName d ∈ ks then ks else ks ++ [speciesName d]) acc ↔
        s ∈ acc ∨ ∃ d ∈ dets, speciesName d = s := by
  induction dets with
  | nil => intro acc s; simp
  | cons d t ih =>
    intro acc s
    simp only [List.foldl_cons]
    by_cases hmem : speciesName d ∈ acc
    · rw [if_pos hmem, ih]
      constructor
      · rintro (h | h)
        · exact Or.inl h
        · exact Or.inr (by rcases h with ⟨e, he, hs⟩; exact ⟨e, List.mem_cons_of_mem d he, hs⟩)
      · rintro (h | ⟨e, he, hs⟩)
        · exact Or.inl h
        · rcases List.mem_cons.mp he with rfl | he'
          · exact Or.inl (hs ▸ hmem)
          · exact Or.inr ⟨e, he', hs⟩
    · rw [if_neg hmem, ih]
      simp only [List.mem_append, List.mem_singleton]
      constructor
      · rintro ((h | h) | h)
        · exact Or.inl h
        · exact Or.inr ⟨d, List.mem_cons_self d t, h.symm⟩
        · exact Or.inr (by rcases h with ⟨e, he, hs⟩; exact ⟨e, List.mem_cons_of_mem d he, hs⟩)
      · rintro (h | ⟨e, he, hs⟩)
        · exact Or.inl (Or.inl h)
        · rcases List.mem_cons.mp he with rfl | he'
          · exact Or.inl (Or.inr hs.symm)
          · exact Or.inr ⟨e, he', hs⟩
/-- A species name occurs among the keys iff some detection carries it. -/
lemma mem_speciesKeys {dets : List WildlifeDetection} {s : String} :
    s ∈ speciesKeys dets ↔ ∃ d ∈ dets, speciesName d = s := by
  unfold speciesKeys
  rw [mem_speciesKeys_foldl]
  simp
/-- C8: below the minimum-data thresholds both detectors return no findings:
temporal detection returns `[]` for fewer than 10 events or fewer than 5
distinct days (for any behaviour of the isolation forest), and species
detection returns `[]` (without reaching the faulty z-score call) for fewer
than 20 events. -/
theorem anomaly_detectors_sparse (forest : List (ℕ × ℚ × Fin 24) → List Bool)
    (dets : List WildlifeDetection) :
    (dets.length < 10 → detect_temporal_anomalies forest dets = []) ∧
    ((dets.map (·.day)).dedup.length < 5 →
      detect_temporal_anomalies forest dets = []) ∧
    (dets.length < 20 → detect_species_anomalies dets = .ok []) := by
  refine ⟨?_, ?_, ?_⟩
  · intro h
    unfold detect_temporal_anomalies
    rw [if_pos h]
  · intro h
    unfold detect_temporal_anomalies
    by_cases h10 : dets.length < 10
    · rw [if_pos h10]
    · rw [if_neg h10]
      have hlen : (daily_stats dets).length < 5 := by
        unfold daily_stats sortedDays
        rw [List.length_map, List.length_insertionSort]
        exact h
      rw [if_pos hlen]
  · intro h
    unfold detect_species_anomalies
    rw [if_pos h]
/-- C8 witness: both detectors applied to the empty input. -/
theorem anomaly_detectors_sparse_witness :
    detect_temporal_anomalies (fun _ => []) [] = [] ∧
      detect_species_anomalies [] = .ok [] :=
  ⟨(anomaly_detectors_sparse (fun _ => []) []).1 (by decide),
   (anomaly_detectors_sparse (fun _ => []) []).2.2 (by decide)⟩
/-- C1 (failing input evaluated): 20 detections of a single species reach the
`stats.zscore` call and the function raises `AttributeError` instead of
computing z-score anomalies. -/
theorem detect_species_anomalies_raises :
    detect_species_anomalies
        ((List.range 20).map (fun i => ⟨some 1, some "deer", i, 12, 1/2⟩)) =
      .error "AttributeError" := by
  rfl
/-- C2 counterexample: two species with one detection each give total `2 > 1`
but Simpson index exactly `1`, outside the claimed half-open `[0, 1)`. -/
theorem simpson_index_counterexample :
    1 < ([1, 1] : List ℕ).sum ∧
      calculate_simpson_index [1, 1] = 1 ∧ ¬ calculate_simpson_index [1, 1] < 1 := by
  have h : calculate_simpson_index [1, 1] = 1 := by
    simp [calculate_simpson_index, simpsonTerm]
  exact ⟨by decide, h, by rw [h]; exact lt_irrefl 1⟩
/-- C2 witness: the amended theorem applied at concrete inputs. -/
theorem simpson_index_range_witness :
    (0 ≤ calculate_simpson_index [2, 1] ∧ calculate_simpson_index [2, 1] ≤ 1) ∧
      calculate_simpson_index [1] = 0 :=
  ⟨⟨((simpson_index_range [2, 1]).1 (by decide)).2.1,
    ((simpson_index_range [2, 1]).1 (by decide)).2.2⟩,
    (simpson_index_range [1]).2 (by decide)⟩
/-- Characterisation of the hourly-activity association list. -/
lemma hourly_activity_mem {dets : List WildlifeDetection} {p : ℕ × ℕ} :
    p ∈ hourly_activity dets ↔ p.1 < 24 ∧ 0 < p.2 ∧ p.2 = hourCount dets p.1 := by
  unfold hourly_activity
  simp only [List.mem_filter, List.mem_map, List.mem_range]
  constructor
  · rintro ⟨⟨h, hh, rfl⟩, hq⟩
    exact ⟨hh, by simpa using hq, rfl⟩
  · rintro ⟨h1, h2, h3⟩
    refine ⟨⟨p.1, h1, ?_⟩, by simpa using h2⟩
    rw [← h3]
/-- The hourly-activity list is strictly increasing in the hour. -/
lemma hourly_activity_pairwise_fst (dets : List WildlifeDetection) :
    (hourly_activity dets).Pairwise (fun a b => a.1 < b.1) := by
  unfold hourly_activity
  apply List.Pairwise.filter
  rw [List.pairwise_map]
  simpa using List.pairwise_lt_range 24
/-- Every pair surviving into the sorted list comes from `hourly_activity`. -/
lemma peak_pairs_mem {dets : List WildlifeDetection} {p : ℕ × ℕ}
    (hp : p ∈ List.insertionSort PeakOrder (hourly_activity dets)) :
    p.1 < 24 ∧ 0 < p.2 ∧ p.2 = hourCount dets p.1 :=
  hourly_activity_mem.mp ((List.perm_insertionSort PeakOrder _).subset hp)
/-- The sorted list carries no repeated hour. -/
lemma peak_nodup_fst (dets : List WildlifeDetection) :
    ((List.insertionSort PeakOrder (hourly_activity dets)).map Prod.fst).Nodup := by
  have h1 : ((hourly_activity dets).map Prod.fst).Pairwise (fun a b => a ≠ b) := by
    rw [List.pairwise_map]
    exact (hourly_activity_pairwise_fst dets).imp (fun h => Nat.ne_of_lt h)
  have hperm : List.Perm
      ((List.insertionSort PeakOrder (hourly_activity dets)).map Prod.fst)
      ((hourly_activity dets).map Prod.fst) :=
    (List.perm_insertionSort PeakOrder _).map Prod.fst
  exact hperm.nodup_iff.mpr h1
/-- C9: the peak-hours list has `min 3 (distinct active hours)` entries, all
with positive detection counts, is ordered by decreasing count with ties
broken by earlier hour, and dominates every active hour left out. -/
theorem peak_activity_hours_spec (dets : List WildlifeDetection) :
    (peak_activity_hours dets).length = min 3 (hourly_activity dets).length ∧
    (∀ h ∈ peak_activity_hours dets, h < 24 ∧ 0 < hourCount dets h) ∧
    (peak_activity_hours dets).Pairwise
      (fun h1 h2 => hourCount dets h2 < hourCount dets h1 ∨
        (hourCount dets h1 = hourCount dets h2 ∧ h1 < h2)) ∧
    (∀ h1 ∈ peak_activity_hours dets, ∀ h2, h2 < 24 → 0 < hourCount dets h2 →
      h2 ∉ peak_activity_hours dets →
      (hourCount dets h2 < hourCount dets h1 ∨
        (hourCount dets h1 = hourCount dets h2 ∧ h1 < h2))) := by
  have hsorted : (List.insertionSort PeakOrder (hourly_activity dets)).Pairwise PeakOrder :=
    List.sorted_insertionSort PeakOrder (hourly_activity dets)
  have htake : ((List.insertionSort PeakOrder (hourly_activity dets)).take 3).Pairwise PeakOrder :=
    List.Pairwise.sublist (List.take_sublist 3 _) hsorted
  have htakeN :
      (((List.insertionSort PeakOrder (hourly_activity dets)).take 3).map Prod.fst).Nodup :=
    List.Nodup.sublist (List.Sublist.map Prod.fst (List.take_sublist 3 _)) (peak_nodup_fst dets)
  refine ⟨?_, ?_, ?_, ?_⟩
  · unfold peak_activity_hours
    rw [List.length_map, List.length_take, List.length_insertionSort]
  · intro h hh
    unfold peak_activity_hours at hh
    rcases List.mem_map.mp hh with ⟨p, hpT, rfl⟩
    have hfacts := peak_pairs_mem (List.mem_of_mem_take hpT)
    exact ⟨hfacts.1, hfacts.2.2 ▸ hfacts.2.1⟩
  · unfold peak_activity_hours
    rw [List.pairwise_map]
    have hand := htake.and (List.pairwise_map.mp htakeN)
    apply hand.imp_of_mem
    intro a b ha hb hab
    have hfa := peak_pairs_mem (List.mem_of_mem_take ha)
    have hfb := peak_pairs_mem (List.mem_of_mem_take hb)
    rcases hab with ⟨hPO, hne⟩
    unfold PeakOrder at hPO
    rw [hfa.2.2, hfb.2.2] at hPO
    rcases hPO with hlt | ⟨heq, hle⟩
    · exact Or.inl hlt
    · exact Or.inr ⟨heq, lt_of_le_of_ne hle hne⟩
  · intro h1 hh1 h2 h24 hcnt hnot
    unfold peak_activity_hours at hh1 hnot
    rcases List.mem_map.mp hh1 with ⟨p1, hp1T, rfl⟩
    have hf1 := peak_pairs_mem (List.mem_of_mem_take hp1T)
    have hp2L : ((h2, hourCount dets h2) : ℕ × ℕ) ∈ hourly_activity dets :=
      hourly_activity_mem.mpr ⟨h24, hcnt, rfl⟩
    have hp2S : ((h2, hourCount dets h2) : ℕ × ℕ) ∈
        List.insertionSort PeakOrder (hourly_activity dets) :=
      ((List.perm_insertionSort PeakOrder _).mem_iff).mpr hp2L
    have hp2nt : ((h2, hourCount dets h2) : ℕ × ℕ) ∉
        (List.insertionSort PeakOrder (hourly_activity dets)).take 3 := by
      intro hmem
      exact hnot (List.mem_map_of_mem Prod.fst hmem)
    have hp2d : ((h2, hourCount dets h2) : ℕ × ℕ) ∈
        (List.insertionSort PeakOrder (hourly_activity dets)).drop 3 := by
      have hS2 : ((h2, hourCount dets h2) : ℕ × ℕ) ∈
          (List.insertionSort PeakOrder (hourly_activity dets)).take 3 ++
            (List.insertionSort PeakOrder (hourly_activity dets)).drop 3 := by
        rw [List.take_append_drop]
        exact hp2S
      rcases List.mem_append.mp hS2 with hmem | hmem
      · exact absurd hmem hp2nt
      · exact hmem
    have happ : ((List.insertionSort PeakOrder (hourly_activity dets)).take 3 ++
        (List.insertionSort PeakOrder (hourly_activity dets)).drop 3).Pairwise PeakOrder := by
      rw [List.take_append_drop]
      exact hsorted
    have hPO := (List.pairwise_append.mp happ).2.2 p1 hp1T _ hp2d
    unfold PeakOrder at hPO
    simp only at hPO
    rw [hf1.2.2] at hPO
    have hne : p1.1 ≠ h2 := by
      intro he
      exact hnot (he ▸ hh1)
    rcases hPO with hlt | ⟨heq, hle⟩
    · exact Or.inl hlt
    · exact Or.inr ⟨heq, lt_of_le_of_ne hle hne⟩
/-- C9 witness: the theorem applied to a concrete input whose peak list
is `[3, 5]`. -/
theorem peak_activity_hours_spec_witness :
    3 < 24 ∧ 0 < hourCount peakExampleDets 3 :=
  (peak_activity_hours_spec peakExampleDets).2.1 3 (by decide)
/-- C4: species with at least 10 distinct days produce a trend entry
(whatever the p-value, so low-confidence trends stay in the list), and the
entry classifies the OLS slope as claimed: `|slope| < 0.01` → stable with
magnitude 0; `slope > 0.01` → increasing with magnitude
`slope·n/mean·100`; `slope < -0.01` → decreasing with its absolute value;
confidence is `min(R²·100, 90)`, halved exactly when the p-value exceeds
0.05. -/
theorem population_trends_spec (pOf seOf : List ℚ → ℚ) (dets : List WildlifeDetection) :
    (∀ s ∈ speciesKeys dets, 10 ≤ (speciesDays dets s).length →
      mkTrend pOf seOf dets s ∈ analyze_population_trends pOf seOf dets) ∧
    (∀ s : String,
      (|linSlope (speciesCounts dets s)| < 0.01 →
        (mkTrend pOf seOf dets s).trend_direction = "stable" ∧
        (mkTrend pOf seOf dets s).trend_percentage = 0) ∧
      (0.01 < linSlope (speciesCounts dets s) →
        (mkTrend pOf seOf dets s).trend_direction = "increasing" ∧
        (mkTrend pOf seOf dets s).trend_percentage =
          linSlope (speciesCounts dets s) * ((speciesDays dets s).length : ℚ)
            / ((speciesCounts dets s).sum / ((speciesCounts dets s).length : ℚ)) * 100) ∧
      (linSlope (speciesCounts dets s) < -0.01 →
        (mkTrend pOf seOf dets s).trend_direction = "decreasing" ∧
        (mkTrend pOf seOf dets s).trend_percentage =
          |linSlope (speciesCounts dets s) * ((speciesDays dets s).length : ℚ)
            / ((speciesCounts dets s).sum / ((speciesCounts dets s).length : ℚ)) * 100|) ∧
      (pOf (speciesCounts dets s) ≤ 0.05 →
        (mkTrend pOf seOf dets s).confidence_level =
          min (linRSquared (speciesCounts dets s) * 100) 90) ∧
      (0.05 < pOf (speciesCounts dets s) →
        (mkTrend pOf seOf dets s).confidence_level =
          min (linRSquared (speciesCounts dets s) * 100) 90 * 0.5)) := by
  constructor
  · intro s hs hlen
    apply List.mem_filterMap.mpr
    refine ⟨s, hs, ?_⟩
    rw [if_neg (by omega)]
  · intro s
    refine ⟨?_, ?_, ?_, ?_, ?_⟩
    · intro hsl
      constructor <;> · simp only [mkTrend]; rw [if_pos hsl]
    · intro hsl
      have h1 : ¬ |linSlope (speciesCounts dets s)| < 0.01 := by
        have := le_abs_self (linSlope (speciesCounts dets s))
        intro h; rw [abs_lt] at h; linarith
      have h2 : linSlope (speciesCounts dets s) > 0 := by
        norm_num at hsl ⊢; linarith
      constructor <;> · simp only [mkTrend]; rw [if_neg h1, if_pos h2]
    · intro hsl
      have h1 : ¬ |linSlope (speciesCounts dets s)| < 0.01 := by
        have := neg_abs_le (linSlope (speciesCounts dets s))
        intro h; rw [abs_lt] at h; norm_num at hsl h; linarith
      have h2 : ¬ linSlope (speciesCounts dets s) > 0 := by
        norm_num at hsl ⊢; linarith
      constructor <;> · simp only [mkTrend]; rw [if_neg h1, if_neg h2]
    · intro hp
      have h1 : ¬ pOf (speciesCounts dets s) > 0.05 := not_lt.mpr hp
      simp only [mkTrend]; rw [if_neg h1]
    · intro hp
      simp only [mkTrend]; rw [if_pos hp]
/-- C4 witness: a species with 10 distinct days appears in the output, and
with an always-significant p-value oracle the confidence is not halved. -/
theorem population_trends_spec_witness :
    mkTrend (fun _ => 0) (fun _ => 0) trendExampleDets "lynx" ∈
      analyze_population_trends (fun _ => 0) (fun _ => 0) trendExampleDets ∧
    (mkTrend (fun _ => 0) (fun _ => 0) trendExampleDets "lynx").confidence_level =
      min (linRSquared (speciesCounts trendExampleDets "lynx") * 100) 90 :=
  ⟨(population_trends_spec (fun _ => 0) (fun _ => 0) trendExampleDets).1 "lynx"
      (by decide) (by decide),
   ((population_trends_spec (fun _ => 0) (fun _ => 0) trendExampleDets).2 "lynx").2.2.2.1
      (by norm_num)⟩
/-- C6: every trend in the output carries a forecast of exactly 30 points
dated consecutively after the last observed day, and — for any value of the
estimated standard error — the predicted count and the interval's lower
bound are nonnegative, with `lower = max(0, predicted - 1.96·std_err)` and
`upper = predicted + 1.96·std_err`. -/
theorem forecast_spec (pOf seOf : List ℚ → ℚ) (dets : List WildlifeDetection) :
    ∀ t ∈ analyze_population_trends pOf seOf dets,
      t.forecast_data.length = 30 ∧
      t.forecast_data.map (fun fp => fp.date) =
        (List.range 30).map
          (fun i => (speciesDays dets t.species_name).getLast?.getD 0 + i + 1) ∧
      ∀ fp ∈ t.forecast_data,
        0 ≤ fp.predicted_count ∧ 0 ≤ fp.lower ∧
        fp.lower =
          max 0 (fp.predicted_count - 1.96 * seOf (speciesCounts dets t.species_name)) ∧
        fp.upper = fp.predicted_count + 1.96 * seOf (speciesCounts dets t.species_name) := by
  intro t ht
  rcases List.mem_filterMap.mp ht with ⟨s, hs, hfs⟩
  by_cases hlen : (speciesDays dets s).length < 10
  · rw [if_pos hlen] at hfs
    exact absurd hfs (by simp)
  · rw [if_neg hlen] at hfs
    have hts : t = mkTrend pOf seOf dets s := by
      injection hfs with h
      exact h.symm
    subst hts
    have hname : (mkTrend pOf seOf dets s).species_name = s := rfl
    rw [hname]
    refine ⟨?_, ?_, ?_⟩
    · simp [mkTrend, forecast_data]
    · simp only [mkTrend, forecast_data, forecastPoint, List.map_map]
      rfl
    · intro fp hfp
      have hfp' : fp ∈ forecast_data (linSlope (speciesCounts dets s))
          (linIntercept (speciesCounts dets s)) (seOf (speciesCounts dets s))
          (speciesDays dets s).length ((speciesDays dets s).getLast?.getD 0) := hfp
      rcases List.mem_map.mp hfp' with ⟨i, _, rfl⟩
      refine ⟨le_max_left _ _, le_max_left _ _, rfl, rfl⟩
/-- C6 witness: the forecast for the concrete 10-day series has 30 points. -/
theorem forecast_spec_witness :
    (mkTrend (fun _ => 0) (fun _ => 1) trendExampleDets "lynx").forecast_data.length = 30 :=
  (forecast_spec (fun _ => 0) (fun _ => 1) trendExampleDets
      (mkTrend (fun _ => 0) (fun _ => 1) trendExampleDets "lynx")
      (List.mem_filterMap.mpr ⟨"lynx", by decide, by rw [if_neg (by decide)]⟩)).1
/-- The step function of the alert fold adds at most one alert. -/
lemma alertsFor_length_le (sp : EnhancedSpecies) (t : TrendResult) (sid nextId : ℕ) :
    (alertsFor sp t sid nextId).length ≤ 1 := by
  unfold alertsFor
  split_ifs <;> simp
/-- Generic bound for the alert fold. -/
lemma generate_foldl_length (trends : List TrendResult)
    (species_data : List EnhancedSpecies) :
    ∀ acc : List ConservationAlert,
      (trends.foldl (fun alerts t =>
        match t.species_id with
        | none => alerts
        | some sid =>
          if sid = 0 then alerts
          else
            match species_lookup species_data sid with
            | none => alerts
            | some sp => alerts ++ alertsFor sp t sid (alerts.length + 1)) acc).length ≤
        acc.length + trends.length := by
  induction trends with
  | nil => intro acc; simp
  | cons t ts ih =>
    intro acc
    simp only [List.foldl_cons, List.length_cons]
    rcases ht : t.species_id with _ | sid
    · calc _ ≤ acc.length + ts.length := ih acc
        _ ≤ acc.length + (ts.length + 1) := by omega
    · dsimp only
      by_cases h0 : sid = 0
      · rw [if_pos h0]
        calc _ ≤ acc.length + ts.length := ih acc
          _ ≤ acc.length + (ts.length + 1) := by omega
      · rw [if_neg h0]
        rcases hsp : species_lookup species_data sid with _ | sp
        · calc _ ≤ acc.length + ts.length := ih acc
            _ ≤ acc.length + (ts.length + 1) := by omega
        · calc _ ≤ (acc ++ alertsFor sp t sid (acc.length + 1)).length + ts.length :=
              ih _
            _ ≤ acc.length + (ts.length + 1) := by
              rw [List.length_append]
              have := alertsFor_length_le sp t sid (acc.length + 1)
              omega
/-- C5: a species/trend pair contributes at most one alert (so Rule A and
Rule B never both fire), Rule A's conditions produce exactly the critical
population-decline alert with the fixed 4-item action list, and the whole
system emits at most one alert per trend. -/
theorem conservation_alerts_spec :
    (∀ (sp : EnhancedSpecies) (t : TrendResult) (sid nextId : ℕ),
      (alertsFor sp t sid nextId).length ≤ 1) ∧
    (∀ (sp : EnhancedSpecies) (t : TrendResult) (sid nextId : ℕ),
      sp.is_endangered = true → t.trend_direction = "decreasing" →
      t.confidence_level > 60 →
      alertsFor sp t sid nextId =
        [⟨nextId, sid, sp.name, "population_decline", "critical",
          "Declining population trend detected for endangered species " ++ sp.name,
          criticalActions, t⟩] ∧ criticalActions.length = 4) ∧
    (∀ (trends : List TrendResult) (species_data : List EnhancedSpecies),
      (generate_conservation_alerts trends species_data).length ≤ trends.length) := by
  refine ⟨alertsFor_length_le, ?_, ?_⟩
  · intro sp t sid nextId he hd hc
    have hA : ruleA sp t = true := by
      unfold ruleA
      rw [he, hd]
      simp [hc]
    constructor
    · unfold alertsFor
      rw [if_pos hA]
    · rfl
  · intro trends species_data
    have := generate_foldl_length trends species_data []
    simpa [generate_conservation_alerts] using this
/-- C10: every alert the system ever emits has severity `"critical"` or
`"high"` (never `"warning"`), and its triggering trend is `"decreasing"`. -/
theorem conservation_alerts_invariant (trends : List TrendResult)
    (species_data : List EnhancedSpecies) :
    ∀ a ∈ generate_conservation_alerts trends species_data,
      (a.severity = "critical" ∨ a.severity = "high") ∧
      a.trend_data.trend_direction = "decreasing" := by
  have hstep : ∀ (sp : EnhancedSpecies) (t : TrendResult) (sid nextId : ℕ),
      ∀ a ∈ alertsFor sp t sid nextId,
        (a.severity = "critical" ∨ a.severity = "high") ∧
        a.trend_data.trend_direction = "decreasing" := by
    intro sp t sid nextId a ha
    unfold alertsFor at ha
    split_ifs at ha with hA hB
    · rcases List.mem_singleton.mp ha with rfl
      refine ⟨Or.inl rfl, ?_⟩
      unfold ruleA at hA
      simp only [Bool.and_eq_true, decide_eq_true_eq] at hA
      exact hA.1.2
    · rcases List.mem_singleton.mp ha with rfl
      refine ⟨Or.inr rfl, ?_⟩
      unfold ruleB at hB
      simp only [Bool.and_eq_true, decide_eq_true_eq] at hB
      exact hB.1.2
    · simp at ha
  have haux : ∀ (ts : List TrendResult) (acc : List ConservationAlert),
      (∀ a ∈ acc, (a.severity = "critical" ∨ a.severity = "high") ∧
        a.trend_data.trend_direction = "decreasing") →
      ∀ a ∈ ts.foldl (fun alerts t =>
          match t.species_id with
          | none => alerts
          | some sid =>
            if sid = 0 then alerts
            else
              match species_lookup species_data sid with
              | none => alerts
              | some sp => alerts ++ alertsFor sp t sid (alerts.length + 1)) acc,
        (a.severity = "critical" ∨ a.severity = "high") ∧
        a.trend_data.trend_direction = "decreasing" := by
    intro ts
    induction ts with
    | nil => intro acc hacc a ha; exact hacc a ha
    | cons t ts ih =>
      intro acc hacc a ha
      simp only [List.foldl_cons] at ha
      rcases ht : t.species_id with _ | sid
      · rw [ht] at ha
        exact ih acc hacc a ha
      · rw [ht] at ha
        dsimp only at ha
        by_cases h0 : sid = 0
        · rw [if_pos h0] at ha
          exact ih acc hacc a ha
        · rw [if_neg h0] at ha
          rcases hsp : species_lookup species_data sid with _ | sp
          · rw [hsp] at ha
            exact ih acc hacc a ha
          · rw [hsp] at ha
            refine ih _ ?_ a ha
            intro b hb
            rcases List.mem_append.mp hb with hb | hb
            · exact hacc b hb
            · exact hstep sp t sid (acc.length + 1) b hb
  intro a ha
  exact haux trends [] (by simp) a ha
/-- C5 witness: the spec's example scenario — endangered species, decreasing
trend, confidence 75 — yields exactly one critical alert with the 4 fixed
actions. -/
theorem conservation_alerts_spec_witness :
    alertsFor exampleSpecies exampleTrend 7 1 =
      [⟨1, 7, exampleSpecies.name, "population_decline", "critical",
        "Declining population trend detected for endangered species "
          ++ exampleSpecies.name,
        criticalActions, exampleTrend⟩] ∧ criticalActions.length = 4 :=
  conservation_alerts_spec.2.1 exampleSpecies exampleTrend 7 1 rfl rfl
    (by norm_num [exampleTrend])
/-- C10 witness: the invariant applied to the alert actually generated from
the example scenario. -/
theorem conservation_alerts_invariant_witness :
    (exampleAlert.severity = "critical" ∨ exampleAlert.severity = "high") ∧
      exampleAlert.trend_data.trend_direction = "decreasing" :=
  conservation_alerts_invariant [exampleTrend] [exampleSpecies] exampleAlert
    (by
      have h : generate_conservation_alerts [exampleTrend] [exampleSpecies] =
          [exampleAlert] := rfl
      rw [h]
      exact List.mem_singleton.mpr rfl)
end WildlifeAnalytics
